import Mathlib

/-!
Shallow embedding of `main.py` from FetchForceMergedPRs.

The program fetches closed pull requests page by page, keeps the merged ones
whose merge timestamp falls in an inclusive date window, scans each kept PR's
comments for the substring "FORCE_MERGE", and renders the matches as text or
JSON.  Network responses are modelled by explicit data (a list of pages and a
comments function); Python `datetime` values are modelled by a record of
calendar fields compared lexicographically, exactly as Python compares
datetimes.
-/

namespace FetchForceMerged

/-- Model of a Python `datetime.datetime` value: calendar and clock fields.
Python compares datetimes field-lexicographically, which `pyLt`/`pyLe` mirror. -/
structure PyDateTime where
  year : Nat
  month : Nat
  day : Nat
  hour : Nat
  minute : Nat
  second : Nat
  microsecond : Nat
deriving DecidableEq

/-- Strict lexicographic order on lists of naturals (same length in our uses). -/
def lexLt : List Nat → List Nat → Bool
  | [], [] => false
  | [], _ :: _ => true
  | _ :: _, [] => false
  | a :: t1, b :: t2 => if a < b then true else if b < a then false else lexLt t1 t2

/-- Field list of a datetime, most significant first. -/
def PyDateTime.fields (d : PyDateTime) : List Nat :=
  [d.year, d.month, d.day, d.hour, d.minute, d.second, d.microsecond]

/-- Python `a < b` on datetimes. -/
def pyLt (a b : PyDateTime) : Bool := lexLt a.fields b.fields

/-- Python `a <= b` on datetimes. -/
def pyLe (a b : PyDateTime) : Bool := pyLt a b || decide (a = b)

/-- Leap-year rule of the Gregorian calendar, as used by Python `calendar`. -/
def isLeapYear (y : Nat) : Bool := y % 4 = 0 && (y % 100 ≠ 0 || y % 400 = 0)

/-- Number of days in a month: `calendar.monthrange(y, m)[1]`. -/
def monthLength (y m : Nat) : Nat :=
  if m = 1 then 31
  else if m = 2 then (if isLeapYear y then 29 else 28)
  else if m = 3 then 31
  else if m = 4 then 30
  else if m = 5 then 31
  else if m = 6 then 30
  else if m = 7 then 31
  else if m = 8 then 31
  else if m = 9 then 30
  else if m = 10 then 31
  else if m = 11 then 30
  else 31

/-- Advance a datetime by one calendar day, clock fields unchanged. -/
def nextDay (d : PyDateTime) : PyDateTime :=
  if d.day < monthLength d.year d.month then
    ⟨d.year, d.month, d.day + 1, d.hour, d.minute, d.second, d.microsecond⟩
  else if d.month < 12 then
    ⟨d.year, d.month + 1, 1, d.hour, d.minute, d.second, d.microsecond⟩
  else
    ⟨d.year + 1, 1, 1, d.hour, d.minute, d.second, d.microsecond⟩

/-- Python `d + datetime.timedelta(days = n)`: add `n` calendar days. -/
def addDays (n : Nat) (d : PyDateTime) : PyDateTime :=
  match n with
  | 0 => d
  | k + 1 => addDays k (nextDay d)

/-- Python `.replace(hour=23, minute=59, second=59, microsecond=999999)`. -/
def endOfDayTime (d : PyDateTime) : PyDateTime :=
  ⟨d.year, d.month, d.day, 23, 59, 59, 999999⟩

/-- Embedding of `calculate_enddate_if_needed` (main.py lines 68-80). -/
def calculate_enddate_if_needed (start_date : PyDateTime) (end_date : Option PyDateTime) :
    PyDateTime :=
  match end_date with
  | some d => d
  | none =>
    if start_date.day = 1 then
      ⟨start_date.year, start_date.month, monthLength start_date.year start_date.month,
        23, 59, 59, 999999⟩
    else
      endOfDayTime (addDays 30 start_date)

/-- Split a character list at every occurrence of `c` (Python `str.split(c)`:
always returns at least one piece, empty pieces included). -/
def splitOnChar (c : Char) : List Char → List (List Char)
  | [] => [[]]
  | a :: t =>
    let r := splitOnChar c t
    if a = c then [] :: r
    else
      match r with
      | [] => [[a]]
      | h :: t2 => (a :: h) :: t2

/-- Value of a decimal digit character, `none` on a non-digit. -/
def digitVal (c : Char) : Option Nat :=
  if ('0' ≤ c ∧ c ≤ '9') then some (c.toNat - ('0').toNat) else none

/-- Read a decimal number from digits, accumulator style. -/
def digitsToNatAux : List Char → Nat → Option Nat
  | [], acc => some acc
  | c :: t, acc =>
    match digitVal c with
    | none => none
    | some d => digitsToNatAux t (acc * 10 + d)

/-- Read a nonempty all-digit character list as a natural number. -/
def digitsToNat (l : List Char) : Option Nat :=
  match l with
  | [] => none
  | _ :: _ => digitsToNatAux l 0

/-- Embedding of `datetime.datetime.strptime(s, "%Y-%m-%dT%H:%M:%SZ")`
(main.py line 39): parse a `YYYY-MM-DDTHH:MM:SSZ` timestamp, validating field
ranges; `none` models the `ValueError` strptime raises on malformed input. -/
def parseTimestamp (s : String) : Option PyDateTime :=
  match splitOnChar ('T') s.data with
  | [datePart, timePart] =>
    (match splitOnChar ('-') datePart, splitOnChar ('Z') timePart with
     | [ys, ms, ds], [ts, []] =>
       (match splitOnChar (':') ts with
        | [hs, mis, secs] =>
          (match digitsToNat ys, digitsToNat ms, digitsToNat ds,
                 digitsToNat hs, digitsToNat mis, digitsToNat secs with
           | some y, some m, some d, some h, some mi, some sec =>
             if 1 ≤ m ∧ m ≤ 12 ∧ 1 ≤ d ∧ d ≤ monthLength y m ∧
                h ≤ 23 ∧ mi ≤ 59 ∧ sec ≤ 59 then
               some ⟨y, m, d, h, mi, sec, 0⟩
             else none
           | _, _, _, _, _, _ => none)
        | _ => none)
     | _, _ => none)
  | _ => none

/-- Python `s.split("T")[0]` (main.py line 120): the part before the first T. -/
def dateOnly (s : String) : String :=
  String.mk ((splitOnChar ('T') s.data).headD [])

/-- The fields of one element of the pull-request listing that `main.py` reads:
`number`, `title`, `user.login`, `merged_at` (absent models JSON null), and
`html_url`. -/
structure PRItem where
  number : Nat
  title : String
  user_login : String
  merged_at : Option String
  html_url : String
deriving DecidableEq

/-- Outcome of the `pr.get("merged_at")` truthiness test followed by `strptime`:
`none` when the merged block is skipped (missing or empty string, both falsy in
Python), `some none` when strptime raises, `some (some t)` when it parses. -/
def prParsedTs (pr : PRItem) : Option (Option PyDateTime) :=
  match pr.merged_at with
  | none => none
  | some str => if str = ("") then none else some (parseTimestamp str)

/-- The merge timestamp the fetcher would compare for this item, if any. -/
def itemTs (pr : PRItem) : Option PyDateTime :=
  (prParsedTs pr).bind id

/-- State after running the `for pr in data:` body (main.py lines 37-51) over a
page: accumulated `prs`, the last value of the local variable `merged_at`
(`none` = still unbound), the `shouldContinue` flag, and whether the loop
raised (`UnboundLocalError` on line 50 or `ValueError` on line 39). -/
structure PageOut where
  acc : List PRItem
  last : Option PyDateTime
  cont : Bool
  err : Bool
deriving DecidableEq

/-- Embedding of the per-page item loop of `get_merged_prs` (main.py 37-51).
Each item: if its `merged_at` is truthy, parse it (parse failure raises), update
the `merged_at` local, and append the item when the timestamp is inside
`[s, e]`; then line 50 reads the `merged_at` local — unbound if no timestamp
was ever parsed — and clears `shouldContinue` when it precedes the start. -/
def processPage (s e : PyDateTime) : List PRItem → List PRItem → Option PyDateTime → Bool →
    PageOut
  | [], acc, last, cont => ⟨acc, last, cont, false⟩
  | pr :: rest, acc, last, cont =>
    match prParsedTs pr with
    | some none => ⟨acc, last, cont, true⟩
    | some (some t) =>
      processPage s e rest (if pyLe s t && pyLe t e then acc ++ [pr] else acc) (some t)
        (if pyLt t s then false else cont)
    | none =>
      match last with
      | none => ⟨acc, last, cont, true⟩
      | some m => processPage s e rest acc (some m) (if pyLt m s then false else cont)

/-- Result of a full fetch: the returned list, how many page requests were
made, and whether the run aborted with an exception. -/
structure FetchResult where
  prs : List PRItem
  pagesRequested : Nat
  errored : Bool
deriving DecidableEq

/-- Embedding of the `while shouldContinue:` page loop of `get_merged_prs`
(main.py 19-53) over an API that serves the given pages in order and empty
pages afterwards.  Each loop iteration is one page request; an empty response
breaks the loop; otherwise the page's items run through `processPage`, and
fetching continues only while `shouldContinue` holds.  `pagesRequested` counts
requests made from this call on. -/
def fetchGo (s e : PyDateTime) : List (List PRItem) → List PRItem → Option PyDateTime →
    FetchResult
  | [], acc, _ => ⟨acc, 1, false⟩
  | data :: rest, acc, last =>
    if data.isEmpty then ⟨acc, 1, false⟩
    else
      let out := processPage s e data acc last true
      if out.err then ⟨out.acc, 1, true⟩
      else if out.cont then
        let r := fetchGo s e rest out.acc out.last
        ⟨r.prs, r.pagesRequested + 1, r.errored⟩
      else ⟨out.acc, 1, false⟩

/-- Embedding of `get_merged_prs` (main.py 10-55); the repository name, token
and verbose flag do not affect the returned data and are omitted. -/
def get_merged_prs (s e : PyDateTime) (pages : List (List PRItem)) : FetchResult :=
  fetchGo s e pages [] none

/-- The fields of one element of the comment listing that `main.py` reads:
`user.login` and `body`. -/
structure Comment where
  user_login : String
  body : String
deriving DecidableEq

/-- One entry of the `force_merged_prs` list (main.py 104-113). -/
structure Record where
  repo : String
  pr_number : Nat
  title : String
  author : String
  commenter : String
  comment_body : String
  merged_at : Option String
  url : String
deriving DecidableEq

/-- The dict literal appended at main.py 104-113. -/
def mkRecord (repo : String) (pr : PRItem) (c : Comment) : Record :=
  ⟨repo, pr.number, pr.title, pr.user_login, c.user_login, c.body, pr.merged_at, pr.html_url⟩

/-- Whether `needle` is a prefix of `hay`. -/
def isPrefixOfChars : List Char → List Char → Bool
  | [], _ => true
  | _ :: _, [] => false
  | a :: t1, b :: t2 => if a = b then isPrefixOfChars t1 t2 else false

/-- Whether `needle` occurs contiguously inside `hay`: Python `needle in hay`
on strings. -/
def containsSubstring (hay needle : List Char) : Bool :=
  match hay with
  | [] => needle.isEmpty
  | _ :: t => isPrefixOfChars needle hay || containsSubstring t needle

/-- The test `"FORCE_MERGE" in comment["body"]` (main.py line 103). -/
def hasMarker (body : String) : Bool :=
  containsSubstring body.data (("FORCE_MERGE").data)

/-- Embedding of the inner `for comment in comments:` loop (main.py 102-113):
append a record for every comment whose body contains the marker. -/
def scanComments (repo : String) (pr : PRItem) : List Comment → List Record → List Record
  | [], recs => recs
  | c :: cs, recs =>
    scanComments repo pr cs (if hasMarker c.body then recs ++ [mkRecord repo pr c] else recs)

/-- State at the end of the `for pr in merged_prs:` loop (main.py 96-113):
the `force_merged_prs` list, the final value of the local `pr_merged_at`
(read later, stale, by the text reporter at line 120), and the PR numbers for
which `get_comments` was invoked, in invocation order. -/
structure ScanOut where
  records : List Record
  pr_merged_at : Option String
  commentsFetchedFor : List Nat
deriving DecidableEq

/-- The network of the program, modelled as data: the successive non-empty
pages the pull-request listing returns (empty afterwards), and the comment
list `get_comments` returns for each PR number (main.py 57-66). -/
structure Api where
  pages : List (List PRItem)
  comments : Nat → List Comment

/-- Embedding of the per-PR scan loop of `main` (main.py 96-113): for each
fetched PR, remember its `merged_at`, fetch its comments, and collect a record
per marker comment. -/
def scanPRs (repo : String) (api : Api) : List PRItem → List Record → Option String →
    List Nat → ScanOut
  | [], recs, stale, fetched => ⟨recs, stale, fetched⟩
  | pr :: rest, recs, _, fetched =>
    scanPRs repo api rest (scanComments repo pr (api.comments pr.number) recs)
      pr.merged_at (fetched ++ [pr.number])

/-- JSON values, the shape `json.dumps` serialises. -/
inductive JVal where
  | jnull
  | jstr (s : String)
  | jnum (n : Nat)
  | jarr (xs : List JVal)
  | jobj (fields : List (String × JVal))

/-- The JSON object one record serialises to (field order of main.py 104-113). -/
def recordJson (r : Record) : JVal :=
  JVal.jobj
    [ (("repo"), JVal.jstr r.repo)
    , (("pr_number"), JVal.jnum r.pr_number)
    , (("title"), JVal.jstr r.title)
    , (("author"), JVal.jstr r.author)
    , (("commenter"), JVal.jstr r.commenter)
    , (("comment_body"), JVal.jstr r.comment_body)
    , (("merged_at"), match r.merged_at with | some s2 => JVal.jstr s2 | none => JVal.jnull)
    , (("url"), JVal.jstr r.url) ]

/-- JSON-mode output: `json.dumps(force_merged_prs, indent=4)` at the value
level (main.py 116). -/
def jsonReport (recs : List Record) : JVal :=
  JVal.jarr (recs.map recordJson)

/-- Key list of a JSON object, `none` on a non-object. -/
def jFieldNames : JVal → Option (List String)
  | JVal.jobj fs => some (fs.map Prod.fst)
  | _ => none

/-- First printed line of a text-mode block (main.py 121). -/
def textLine1 (r : Record) (formatted : String) : String :=
  r.repo ++ ("#") ++ Nat.repr r.pr_number ++ (": ") ++ r.author ++ (" - ") ++ r.title
    ++ (" @ ") ++ formatted

/-- Text-mode output (main.py 118-123), one list entry per `print` call.  The
date printed on every first line comes from the stale `pr_merged_at` local of
the scan loop, not from the record being printed. -/
def textLines (recs : List Record) (stale : Option String) : List String :=
  ("\nForce-Merged PRs:") ::
    recs.flatMap (fun r =>
      [ textLine1 r (dateOnly (stale.getD ("")))
      , ("Comment by ") ++ r.commenter ++ (": ") ++ r.comment_body
      , ("URL: ") ++ r.url ++ ("\n") ])

/-- What `main` prints: a list of text lines or one JSON value. -/
inductive Output where
  | text (lines : List String)
  | json (v : JVal)

/-- The fetch-and-scan part of `main` (main.py 86-113): resolve the end date,
fetch the merged PRs, and scan their comments; `none` models the run aborting
on the exception raised inside `get_merged_prs`. -/
def mainScan (repo : String) (api : Api) (s : PyDateTime) (e? : Option PyDateTime) :
    Option ScanOut :=
  let e := calculate_enddate_if_needed s e?
  let f := get_merged_prs s e api.pages
  if f.errored then none else some (scanPRs repo api f.prs [] none [])

/-- Embedding of `main` (main.py 82-123): the scan followed by the reporter. -/
def runMain (repo : String) (api : Api) (s : PyDateTime) (e? : Option PyDateTime)
    (output_json : Bool) : Option Output :=
  (mainScan repo api s e?).map (fun sc =>
    if output_json then Output.json (jsonReport sc.records)
    else Output.text (textLines sc.records sc.pr_merged_at))

/-- A pull request may be appended by the fetcher only when its merge
timestamp exists and lies inside the inclusive window. -/
def inWindowItem (s e : PyDateTime) (x : PRItem) : Prop :=
  ∃ t, itemTs x = some t ∧ (pyLe s t && pyLe t e) = true

/-- March 1, 2024 at midnight: a CLI start date. -/
def startMar : PyDateTime := ⟨2024, 3, 1, 0, 0, 0, 0⟩

/-- March 31, 2024, end of day: a CLI end date. -/
def endMar : PyDateTime := ⟨2024, 3, 31, 23, 59, 59, 999999⟩

/-- A merged pull request inside the March window, carrying a marker comment. -/
def prOne : PRItem := ⟨1, ("Fix"), ("alice"), some ("2024-03-10T01:02:03Z"), ("u1")⟩

/-- A later merged pull request inside the March window, with no comments. -/
def prTwo : PRItem := ⟨2, ("Feat"), ("carol"), some ("2024-03-20T04:05:06Z"), ("u2")⟩

/-- A closed but unmerged pull request: `merged_at` is null. -/
def prNoTs : PRItem := ⟨7, ("Old"), ("erin"), none, ("u7")⟩

/-- A pull request merged before the March window starts. -/
def prEarly : PRItem := ⟨3, ("Ancient"), ("dan"), some ("2024-02-15T00:00:00Z"), ("u3")⟩

/-- The comment that triggers a record. -/
def markerComment : Comment := ⟨("bob"), ("please FORCE_MERGE this")⟩

/-- An API serving one page with the two March pull requests; PR 1 has the
marker comment. -/
def apiTwo : Api :=
  ⟨[[prOne, prTwo]], fun n => if n = 1 then [markerComment] else []⟩

/-- The scan state `apiTwo` produces over the March window. -/
def scanTwo : ScanOut :=
  ⟨[mkRecord ("acme/widgets") prOne markerComment], some ("2024-03-20T04:05:06Z"), [1, 2]⟩

/-- One of a hundred identical-but-numbered in-window merged items. -/
def mkPageItem (k : Nat) : PRItem :=
  ⟨k, ("PR"), ("alice"), some ("2024-03-15T12:00:00Z"), ("u")⟩

/-- A full page of one hundred in-window merged items. -/
def page100 : List PRItem := (List.range 100).map mkPageItem

/-- A record that originates from an in-window fetched pull request, via one
of that pull request's comments containing the marker. -/
def recordFromInWindow (repo : String) (api : Api) (s e : PyDateTime) (r : Record) : Prop :=
  ∃ pr, pr ∈ (get_merged_prs s e api.pages).prs ∧ inWindowItem s e pr ∧
    ∃ c, c ∈ api.comments pr.number ∧ hasMarker c.body = true ∧ r = mkRecord repo pr c

/-- A PR number whose comments were fetched belongs to an in-window fetched
pull request. -/
def fetchedFromInWindow (api : Api) (s e : PyDateTime) (n : Nat) : Prop :=
  ∃ pr, pr ∈ (get_merged_prs s e api.pages).prs ∧ inWindowItem s e pr ∧ pr.number = n

/-- The eight documented fields of a ForceMergeRecord, in serialisation order. -/
def eightFields : List String :=
  [("repo"), ("pr_number"), ("title"), ("author"), ("commenter"), ("comment_body"),
    ("merged_at"), ("url")]

/-- A JSON value that is an array whose every element is an object carrying
exactly the eight documented fields. -/
def isEightFieldArray : JVal → Prop
  | JVal.jarr xs => ∀ x ∈ xs, jFieldNames x = some eightFields
  | _ => False

/-- An item's parsed timestamp determines its three-way parse outcome. -/
theorem prParsedTs_of_itemTs {x : PRItem} {t : PyDateTime} (h : itemTs x = some t) :
    prParsedTs x = some (some t) := by
  cases hq : prParsedTs x with
  | none => simp [itemTs, hq] at h
  | some o =>
    cases o with
    | none => simp [itemTs, hq] at h
    | some u => simp [itemTs, hq] at h; rw [h]

/-- Items already accumulated survive the rest of a page's item loop. -/
theorem processPage_mono (s e : PyDateTime) (items : List PRItem) :
    ∀ acc last cont x, x ∈ acc → x ∈ (processPage s e items acc last cont).acc := by
  induction items with
  | nil => intro acc last cont x hx; simpa [processPage] using hx
  | cons pr rest ih =>
    intro acc last cont x hx
    cases hp : prParsedTs pr with
    | none =>
      cases hl : last with
      | none => simpa [processPage, hp, hl] using hx
      | some m => simpa [processPage, hp, hl] using ih acc (some m) _ x hx
    | some o =>
      cases o with
      | none => simpa [processPage, hp] using hx
      | some t =>
        have hx2 : x ∈ (if pyLe s t && pyLe t e then acc ++ [pr] else acc) := by
          split
          · exact List.mem_append_left _ hx
          · exact hx
        simpa [processPage, hp] using ih _ (some t) _ x hx2

/-- Every item the page loop accumulates has a merge timestamp inside the
window, provided the items already accumulated do. -/
theorem processPage_window (s e : PyDateTime) (items : List PRItem) :
    ∀ acc last cont, (∀ x ∈ acc, inWindowItem s e x) →
      ∀ x ∈ (processPage s e items acc last cont).acc, inWindowItem s e x := by
  induction items with
  | nil => intro acc last cont h; simpa [processPage] using h
  | cons pr rest ih =>
    intro acc last cont h
    cases hp : prParsedTs pr with
    | none =>
      cases hl : last with
      | none => simpa [processPage, hp, hl] using h
      | some m => simpa [processPage, hp, hl] using ih acc (some m) _ h
    | some o =>
      cases o with
      | none => simpa [processPage, hp] using h
      | some t =>
        have h2 : ∀ x ∈ (if pyLe s t && pyLe t e then acc ++ [pr] else acc),
            inWindowItem s e x := by
          split
          case isTrue hc =>
            intro x hx
            rcases List.mem_append.mp hx with h1 | h1
            · exact h _ h1
            · have hxpr : x = pr := by simpa using h1
              subst hxpr
              exact ⟨t, by simp [itemTs, hp], hc⟩
          case isFalse _ => exact h
        simpa [processPage, hp] using ih _ (some t) _ h2

/-- If the page's item loop finishes without raising, every item of the page
whose merge timestamp lies inside the window ends up accumulated. -/
theorem processPage_complete (s e : PyDateTime) (items : List PRItem) :
    ∀ acc last cont x t, (processPage s e items acc last cont).err = false →
      x ∈ items → itemTs x = some t → (pyLe s t && pyLe t e) = true →
      x ∈ (processPage s e items acc last cont).acc := by
  induction items with
  | nil => intro acc last cont x t _ hx _ _; simp at hx
  | cons pr rest ih =>
    intro acc last cont x t herr hx hts hw
    rcases List.mem_cons.mp hx with rfl | hx2
    · have hp := prParsedTs_of_itemTs hts
      have hmem : x ∈ (if pyLe s t && pyLe t e then acc ++ [x] else acc) := by
        rw [if_pos hw]
        exact List.mem_append_right _ (by simp)
      simpa [processPage, hp] using processPage_mono s e rest _ (some t) _ x hmem
    · cases hp : prParsedTs pr with
      | none =>
        cases hl : last with
        | none => simp [processPage, hp, hl] at herr
        | some m =>
          have herr2 := herr
          simp only [processPage, hp, hl] at herr2 ⊢
          exact ih acc (some m) _ x t herr2 hx2 hts hw
      | some o =>
        cases o with
        | none => simp [processPage, hp] at herr
        | some u =>
          have herr2 := herr
          simp only [processPage, hp] at herr2 ⊢
          exact ih _ (some u) _ x t herr2 hx2 hts hw

/-- Once `shouldContinue` is false it stays false for the rest of the page. -/
theorem processPage_false (s e : PyDateTime) (items : List PRItem) :
    ∀ acc last, (processPage s e items acc last false).cont = false := by
  induction items with
  | nil => intro acc last; simp [processPage]
  | cons pr rest ih =>
    intro acc last
    cases hp : prParsedTs pr with
    | none =>
      cases hl : last with
      | none => simp [processPage, hp, hl]
      | some m => simpa [processPage, hp, hl] using ih acc (some m)
    | some o =>
      cases o with
      | none => simp [processPage, hp]
      | some t => simpa [processPage, hp] using ih _ (some t)

/-- A page containing an item merged strictly before the window start either
raises or ends with `shouldContinue` cleared. -/
theorem processPage_stop (s e : PyDateTime) (items : List PRItem) :
    ∀ acc last cont x t, x ∈ items → itemTs x = some t → pyLt t s = true →
      (processPage s e items acc last cont).err = true ∨
        (processPage s e items acc last cont).cont = false := by
  induction items with
  | nil => intro acc last cont x t hx _ _; simp at hx
  | cons pr rest ih =>
    intro acc last cont x t hx hts hlt
    rcases List.mem_cons.mp hx with rfl | hx2
    · have hp := prParsedTs_of_itemTs hts
      right
      simpa [processPage, hp, hlt] using processPage_false s e rest _ (some t)
    · cases hp : prParsedTs pr with
      | none =>
        cases hl : last with
        | none => left; simp [processPage, hp, hl]
        | some m => simpa [processPage, hp, hl] using ih acc (some m) _ x t hx2 hts hlt
      | some o =>
        cases o with
        | none => left; simp [processPage, hp]
        | some u => simpa [processPage, hp] using ih _ (some u) _ x t hx2 hts hlt

/-- Items already accumulated survive the rest of the page loop. -/
theorem fetchGo_mono (s e : PyDateTime) (pages : List (List PRItem)) :
    ∀ acc last x, x ∈ acc → x ∈ (fetchGo s e pages acc last).prs := by
  induction pages with
  | nil => intro acc last x hx; simpa [fetchGo] using hx
  | cons data rest ih =>
    intro acc last x hx
    by_cases hemp : data.isEmpty
    · simpa [fetchGo, hemp] using hx
    · have hmem := processPage_mono s e data acc last true x hx
      by_cases herr : (processPage s e data acc last true).err
      · simpa [fetchGo, hemp, herr] using hmem
      · by_cases hcont : (processPage s e data acc last true).cont
        · simpa [fetchGo, hemp, herr, hcont] using ih _ _ x hmem
        · simpa [fetchGo, hemp, herr, hcont] using hmem

/-- Every pull request the fetcher returns has a merge timestamp inside the
inclusive window, provided the items accumulated so far do. -/
theorem fetchGo_window (s e : PyDateTime) (pages : List (List PRItem)) :
    ∀ acc last, (∀ x ∈ acc, inWindowItem s e x) →
      ∀ x ∈ (fetchGo s e pages acc last).prs, inWindowItem s e x := by
  induction pages with
  | nil => intro acc last h; simpa [fetchGo] using h
  | cons data rest ih =>
    intro acc last h
    by_cases hemp : data.isEmpty
    · simpa [fetchGo, hemp] using h
    · have hout := processPage_window s e data acc last true h
      by_cases herr : (processPage s e data acc last true).err
      · simpa [fetchGo, hemp, herr] using hout
      · by_cases hcont : (processPage s e data acc last true).cont
        · simpa [fetchGo, hemp, herr, hcont] using ih _ _ hout
        · simpa [fetchGo, hemp, herr, hcont] using hout

/-- As soon as a requested page holds an item merged strictly before the window
start, no page beyond it is requested. -/
theorem fetchGo_stop_bound (s e : PyDateTime) (pages : List (List PRItem)) :
    ∀ acc last i data x t, pages.get? i = some data → x ∈ data →
      itemTs x = some t → pyLt t s = true →
      (fetchGo s e pages acc last).pagesRequested ≤ i + 1 := by
  induction pages with
  | nil => intro acc last i data x t hget _ _ _; simp at hget
  | cons d rest ih =>
    intro acc last i data x t hget hx hts hlt
    cases i with
    | zero =>
      have hd : d = data := by simpa using hget
      subst hd
      have hemp : ¬ d.isEmpty := by
        cases d with
        | nil => simp at hx
        | cons a t2 => simp
      by_cases herr : (processPage s e d acc last true).err
      · simp [fetchGo, hemp, herr]
      · have hcont : (processPage s e d acc last true).cont = false := by
          rcases processPage_stop s e d acc last true x t hx hts hlt with h | h
          · exact absurd h herr
          · exact h
        simp [fetchGo, hemp, herr, hcont]
    | succ i2 =>
      have hget2 : rest.get? i2 = some data := by simpa using hget
      by_cases hemp : d.isEmpty
      · simp [fetchGo, hemp]
      · by_cases herr : (processPage s e d acc last true).err
        · simp [fetchGo, hemp, herr]
        · by_cases hcont : (processPage s e d acc last true).cont
          · have hb := ih (processPage s e d acc last true).acc
              (processPage s e d acc last true).last i2 data x t hget2 hx hts hlt
            simp only [fetchGo]
            simp only [if_neg hemp, if_neg herr, if_pos hcont]
            omega
          · simp [fetchGo, hemp, herr, hcont]

/-- Requesting a page that comes back empty ends the loop: the fetch never
requests past the first empty page. -/
theorem fetchGo_empty_bound (s e : PyDateTime) (pages : List (List PRItem)) :
    ∀ acc last i, pages.get? i = some [] →
      (fetchGo s e pages acc last).pagesRequested ≤ i + 1 := by
  induction pages with
  | nil => intro acc last i hget; simp at hget
  | cons d rest ih =>
    intro acc last i hget
    cases i with
    | zero =>
      have hd : d = [] := by simpa using hget
      subst hd
      simp [fetchGo]
    | succ i2 =>
      have hget2 : rest.get? i2 = some [] := by simpa using hget
      by_cases hemp : d.isEmpty
      · simp [fetchGo, hemp]
      · by_cases herr : (processPage s e d acc last true).err
        · simp [fetchGo, hemp, herr]
        · by_cases hcont : (processPage s e d acc last true).cont
          · have hb := ih (processPage s e d acc last true).acc
              (processPage s e d acc last true).last i2 hget2
            simp only [fetchGo]
            simp only [if_neg hemp, if_neg herr, if_pos hcont]
            omega
          · simp [fetchGo, hemp, herr, hcont]

/-- On a run that does not raise, every item of a requested page whose merge
timestamp lies inside the window is in the returned list. -/
theorem fetchGo_complete (s e : PyDateTime) (pages : List (List PRItem)) :
    ∀ acc last x t, (fetchGo s e pages acc last).errored = false →
      x ∈ (pages.take (fetchGo s e pages acc last).pagesRequested).flatten →
      itemTs x = some t → (pyLe s t && pyLe t e) = true →
      x ∈ (fetchGo s e pages acc last).prs := by
  induction pages with
  | nil => intro acc last x t _ hx _ _; simp [fetchGo] at hx
  | cons d rest ih =>
    intro acc last x t herrd hx hts hw
    by_cases hemp : d.isEmpty
    · have hd : d = [] := by simpa [List.isEmpty_iff] using hemp
      subst hd
      simp [fetchGo] at hx
    · by_cases herr : (processPage s e d acc last true).err
      · simp [fetchGo, hemp, herr] at herrd
      · have herr2 : (processPage s e d acc last true).err = false := by
          simpa using herr
        by_cases hcont : (processPage s e d acc last true).cont
        · simp only [fetchGo] at herrd hx ⊢
          simp only [if_neg hemp, if_neg herr, if_pos hcont] at herrd hx ⊢
          rw [List.take_succ_cons, List.flatten_cons] at hx
          rcases List.mem_append.mp hx with hx1 | hx1
          · exact fetchGo_mono s e rest _ _ x
              (processPage_complete s e d acc last true x t herr2 hx1 hts hw)
          · exact ih _ _ x t herrd hx1 hts hw
        · simp only [fetchGo] at hx ⊢
          simp only [if_neg hemp, if_neg herr, if_neg hcont] at hx ⊢
          rw [List.take_succ_cons, List.flatten_cons] at hx
          rcases List.mem_append.mp hx with hx1 | hx1
          · exact processPage_complete s e d acc last true x t herr2 hx1 hts hw
          · simp at hx1

/-- The comment loop appends exactly one record per marker comment, in comment
order, after whatever was already collected. -/
theorem scanComments_eq (repo : String) (pr : PRItem) (cs : List Comment) :
    ∀ recs, scanComments repo pr cs recs =
      recs ++ (cs.filter (fun c => hasMarker c.body)).map (mkRecord repo pr) := by
  induction cs with
  | nil => intro recs; simp [scanComments]
  | cons c cst ih =>
    intro recs
    by_cases hm : hasMarker c.body
    · simp [scanComments, hm, ih, List.filter_cons]
    · simp [scanComments, hm, ih, List.filter_cons]

/-- The PR loop emits, after whatever was already collected, one record per
marker comment of each scanned PR, in PR order then comment order. -/
theorem scanPRs_records (repo : String) (api : Api) (merged : List PRItem) :
    ∀ recs stale fetched, (scanPRs repo api merged recs stale fetched).records =
      recs ++ merged.flatMap (fun pr =>
        ((api.comments pr.number).filter (fun c => hasMarker c.body)).map
          (mkRecord repo pr)) := by
  induction merged with
  | nil => intro recs stale fetched; simp [scanPRs]
  | cons pr rest ih =>
    intro recs stale fetched
    simp [scanPRs, ih, scanComments_eq, List.flatMap_cons, List.append_assoc]

/-- Comments are fetched exactly for the scanned PRs, in scan order. -/
theorem scanPRs_fetched (repo : String) (api : Api) (merged : List PRItem) :
    ∀ recs stale fetched, (scanPRs repo api merged recs stale fetched).commentsFetchedFor =
      fetched ++ merged.map (fun pr => pr.number) := by
  induction merged with
  | nil => intro recs stale fetched; simp [scanPRs]
  | cons pr rest ih =>
    intro recs stale fetched
    simp [scanPRs, ih, List.append_assoc]

/-- C1: the claim says every text-mode block's first line ends with the
calendar-date portion of that record's own merged-at timestamp.  The code
instead reads the stale `pr_merged_at` local left over from the scan loop
(main.py line 120).  Concretely: PR 1 (merged 2024-03-10, marker comment) and
PR 2 (merged 2024-03-20, no comments) are both in the window; the single
record belongs to PR 1 with its own date 2024-03-10, yet its printed first
line ends with 2024-03-20, PR 2's date. -/
theorem c1_text_mode_date_is_stale :
    mainScan ("acme/widgets") apiTwo startMar (some endMar) = some scanTwo ∧
    scanTwo.records = [mkRecord ("acme/widgets") prOne markerComment] ∧
    (mkRecord ("acme/widgets") prOne markerComment).merged_at =
      some ("2024-03-10T01:02:03Z") ∧
    dateOnly ("2024-03-10T01:02:03Z") = ("2024-03-10") ∧
    (textLines scanTwo.records scanTwo.pr_merged_at).get? 1 =
      some ("acme/widgets#1: alice - Fix @ 2024-03-20") ∧
    runMain ("acme/widgets") apiTwo startMar (some endMar) false =
      some (Output.text (textLines scanTwo.records scanTwo.pr_merged_at)) := by
  refine ⟨by decide, by decide, by decide, by decide, by decide, ?_⟩
  rfl

/-- C2: the claim says an item with no merge timestamp, in any position of any
page, is skipped without aborting the run.  When such an item is the first
item the fetcher ever processes, line 50 of main.py reads the local
`merged_at` before any assignment, raising UnboundLocalError and aborting the
run with an empty result after a single page request. -/
theorem c2_missing_timestamp_aborts :
    prNoTs.merged_at = none ∧
    get_merged_prs startMar endMar [[prNoTs]] =
      ⟨[], 1, true⟩ := by
  exact ⟨rfl, by decide⟩

/-- C3: once a requested page holds an item whose merge timestamp is strictly
earlier than the window start, the fetcher makes no request beyond that page:
its total page-request count stays at most the index of that page. -/
theorem c3_early_stop_no_further_pages (s e : PyDateTime) (pages : List (List PRItem))
    (i : Nat) (data : List PRItem) (x : PRItem) (t : PyDateTime)
    (hpage : pages.get? i = some data) (hx : x ∈ data) (hts : itemTs x = some t)
    (hlt : pyLt t s = true) :
    (get_merged_prs s e pages).pagesRequested ≤ i + 1 :=
  fetchGo_stop_bound s e pages [] none i data x t hpage hx hts hlt

/-- Witness for C3: a first page containing a pre-window item stops the run
after one request even though a second page is available. -/
theorem c3_early_stop_witness :
    ([[prEarly], [prOne]] : List (List PRItem)).get? 0 = some [prEarly] ∧
    prEarly ∈ [prEarly] ∧
    itemTs prEarly = some ⟨2024, 2, 15, 0, 0, 0, 0⟩ ∧
    pyLt ⟨2024, 2, 15, 0, 0, 0, 0⟩ startMar = true ∧
    (get_merged_prs startMar endMar [[prEarly], [prOne]]).pagesRequested ≤ 0 + 1 :=
  ⟨by decide, by decide, by decide, by decide,
    c3_early_stop_no_further_pages startMar endMar [[prEarly], [prOne]] 0 [prEarly] prEarly
      ⟨2024, 2, 15, 0, 0, 0, 0⟩ (by decide) (by decide) (by decide) (by decide)⟩

/-- C4: on a run that does not abort, an item of a requested page that has a
merge timestamp is in the returned result if and only if that timestamp lies
inside the window, both boundaries inclusive. -/
theorem c4_window_filter_iff (s e : PyDateTime) (pages : List (List PRItem)) (x : PRItem)
    (t : PyDateTime) (herr : (get_merged_prs s e pages).errored = false)
    (hx : x ∈ (pages.take (get_merged_prs s e pages).pagesRequested).flatten)
    (hts : itemTs x = some t) :
    x ∈ (get_merged_prs s e pages).prs ↔ (pyLe s t = true ∧ pyLe t e = true) := by
  constructor
  · intro hmem
    rcases fetchGo_window s e pages [] none (by simp) x hmem with ⟨u, hu, hcc⟩
    rw [hts] at hu
    have hut : u = t := by simpa using hu.symm
    subst hut
    exact Bool.and_eq_true_iff.mp hcc
  · intro hw
    exact fetchGo_complete s e pages [] none x t herr hx hts
      (Bool.and_eq_true_iff.mpr hw)

/-- Witness for C4: with two in-window PRs on the only page, the iff puts the
first one in the result. -/
theorem c4_window_filter_witness :
    (get_merged_prs startMar endMar [[prOne, prTwo]]).errored = false ∧
    prOne ∈ (([[prOne, prTwo]] : List (List PRItem)).take
      (get_merged_prs startMar endMar [[prOne, prTwo]]).pagesRequested).flatten ∧
    itemTs prOne = some ⟨2024, 3, 10, 1, 2, 3, 0⟩ ∧
    prOne ∈ (get_merged_prs startMar endMar [[prOne, prTwo]]).prs :=
  ⟨by decide, by decide, by decide,
    (c4_window_filter_iff startMar endMar [[prOne, prTwo]] prOne ⟨2024, 3, 10, 1, 2, 3, 0⟩
      (by decide) (by decide) (by decide)).mpr ⟨by decide, by decide⟩⟩

/-- C5: an explicitly given end date is returned unchanged; with no end date,
a start on the first of a month resolves to the last calendar day of that
month at 23:59:59.999999 (28-, 29-, 30- and 31-day months all handled), and
any other start resolves to start plus 30 days at 23:59:59.999999. -/
theorem c5_end_date_resolution (s d : PyDateTime) :
    calculate_enddate_if_needed s (some d) = d ∧
    (s.day = 1 → calculate_enddate_if_needed s none =
      ⟨s.year, s.month, monthLength s.year s.month, 23, 59, 59, 999999⟩) ∧
    (s.day ≠ 1 → calculate_enddate_if_needed s none = endOfDayTime (addDays 30 s)) ∧
    monthLength 2023 2 = 28 ∧ monthLength 2024 2 = 29 ∧
    monthLength 2024 4 = 30 ∧ monthLength 2024 1 = 31 ∧
    calculate_enddate_if_needed ⟨2023, 2, 1, 0, 0, 0, 0⟩ none =
      ⟨2023, 2, 28, 23, 59, 59, 999999⟩ ∧
    calculate_enddate_if_needed ⟨2024, 2, 1, 0, 0, 0, 0⟩ none =
      ⟨2024, 2, 29, 23, 59, 59, 999999⟩ ∧
    calculate_enddate_if_needed ⟨2024, 4, 1, 0, 0, 0, 0⟩ none =
      ⟨2024, 4, 30, 23, 59, 59, 999999⟩ ∧
    calculate_enddate_if_needed ⟨2024, 1, 1, 0, 0, 0, 0⟩ none =
      ⟨2024, 1, 31, 23, 59, 59, 999999⟩ ∧
    calculate_enddate_if_needed ⟨2024, 3, 15, 0, 0, 0, 0⟩ none =
      ⟨2024, 4, 14, 23, 59, 59, 999999⟩ := by
  refine ⟨rfl, ?_, ?_, by decide, by decide, by decide, by decide, by decide, by decide,
    by decide, by decide, by decide⟩
  · intro h; simp [calculate_enddate_if_needed, h]
  · intro h; simp [calculate_enddate_if_needed, h]

/-- Witness for C5: a first-of-month start resolves to May 31, and a start on
May 2 resolves to thirty days later, June 1, both at end of day. -/
theorem c5_end_date_witness :
    calculate_enddate_if_needed ⟨2024, 5, 1, 0, 0, 0, 0⟩ none =
      ⟨2024, 5, 31, 23, 59, 59, 999999⟩ ∧
    calculate_enddate_if_needed ⟨2024, 5, 2, 0, 0, 0, 0⟩ none =
      ⟨2024, 6, 1, 23, 59, 59, 999999⟩ := by
  constructor
  · have h := (c5_end_date_resolution ⟨2024, 5, 1, 0, 0, 0, 0⟩
      ⟨0, 0, 0, 0, 0, 0, 0⟩).2.1 (by decide)
    rw [h]; decide
  · have h := (c5_end_date_resolution ⟨2024, 5, 2, 0, 0, 0, 0⟩
      ⟨0, 0, 0, 0, 0, 0, 0⟩).2.2.1 (by decide)
    rw [h]; decide

/-- C6: over the fetched in-window pull requests, the scan emits one record
per comment whose body contains "FORCE_MERGE" as a case-sensitive substring —
exactly those comments, in PR order then comment order; in particular a body
"please FORCE_MERGE this" matches and a body "force_merge" does not. -/
theorem c6_marker_substring_iff (repo : String) (api : Api) (s : PyDateTime)
    (e? : Option PyDateTime) (sc : ScanOut) (h : mainScan repo api s e? = some sc) :
    sc.records =
      ((get_merged_prs s (calculate_enddate_if_needed s e?) api.pages).prs).flatMap
        (fun pr => ((api.comments pr.number).filter (fun c => hasMarker c.body)).map
          (mkRecord repo pr)) ∧
    hasMarker ("please FORCE_MERGE this") = true ∧
    hasMarker ("force_merge") = false := by
  refine ⟨?_, by decide, by decide⟩
  by_cases hf : (get_merged_prs s (calculate_enddate_if_needed s e?) api.pages).errored
  · simp [mainScan, hf] at h
  · simp [mainScan, hf] at h
    rw [← h]
    simp [scanPRs_records]

/-- Witness for C6: the concrete March scenario produces exactly the marker
record of PR 1. -/
theorem c6_marker_witness :
    scanTwo.records =
      ((get_merged_prs startMar (calculate_enddate_if_needed startMar (some endMar))
        apiTwo.pages).prs).flatMap
        (fun pr => ((apiTwo.comments pr.number).filter (fun c => hasMarker c.body)).map
          (mkRecord ("acme/widgets") pr)) :=
  (c6_marker_substring_iff ("acme/widgets") apiTwo startMar (some endMar) scanTwo
    (by decide)).1

/-- C7: on a completed run, every emitted record originates from a fetched
pull request whose merge timestamp lies inside the inclusive window, and
comments were fetched only for such pull requests. -/
theorem c7_records_in_window_invariant (repo : String) (api : Api) (s : PyDateTime)
    (e? : Option PyDateTime) (sc : ScanOut) (h : mainScan repo api s e? = some sc) :
    (∀ r ∈ sc.records,
      recordFromInWindow repo api s (calculate_enddate_if_needed s e?) r) ∧
    (∀ n ∈ sc.commentsFetchedFor,
      fetchedFromInWindow api s (calculate_enddate_if_needed s e?) n) := by
  by_cases hf : (get_merged_prs s (calculate_enddate_if_needed s e?) api.pages).errored
  · simp [mainScan, hf] at h
  · simp [mainScan, hf] at h
    have hwin : ∀ x ∈ (get_merged_prs s (calculate_enddate_if_needed s e?) api.pages).prs,
        inWindowItem s (calculate_enddate_if_needed s e?) x :=
      fetchGo_window s (calculate_enddate_if_needed s e?) api.pages [] none (by simp)
    constructor
    · intro r hr
      rw [← h, scanPRs_records] at hr
      simp only [List.nil_append] at hr
      rcases List.mem_flatMap.mp hr with ⟨pr, hpr, hr2⟩
      rcases List.mem_map.mp hr2 with ⟨c, hc, hr3⟩
      rcases List.mem_filter.mp hc with ⟨hc1, hc2⟩
      exact ⟨pr, hpr, hwin pr hpr, c, hc1, by simpa using hc2, hr3.symm⟩
    · intro n hn
      rw [← h, scanPRs_fetched] at hn
      simp only [List.nil_append] at hn
      rcases List.mem_map.mp hn with ⟨pr, hpr, hneq⟩
      exact ⟨pr, hpr, hwin pr hpr, hneq⟩

/-- Witness for C7: the emitted record of the March scenario comes from an
in-window PR, and PR 2's comment fetch was for an in-window PR. -/
theorem c7_invariant_witness :
    recordFromInWindow ("acme/widgets") apiTwo startMar
      (calculate_enddate_if_needed startMar (some endMar))
      (mkRecord ("acme/widgets") prOne markerComment) ∧
    fetchedFromInWindow apiTwo startMar
      (calculate_enddate_if_needed startMar (some endMar)) 2 :=
  ⟨(c7_records_in_window_invariant ("acme/widgets") apiTwo startMar (some endMar) scanTwo
      (by decide)).1 (mkRecord ("acme/widgets") prOne markerComment) (by decide),
    (c7_records_in_window_invariant ("acme/widgets") apiTwo startMar (some endMar) scanTwo
      (by decide)).2 2 (by decide)⟩

/-- C8: whatever JSON mode prints is a JSON array whose every element is an
object holding exactly the eight documented fields, in order: repo, pr_number,
title, author, commenter, comment_body, merged_at, url. -/
theorem c8_json_output_eight_fields (repo : String) (api : Api) (s : PyDateTime)
    (e? : Option PyDateTime) (v : JVal)
    (h : runMain repo api s e? true = some (Output.json v)) :
    isEightFieldArray v := by
  cases hm : mainScan repo api s e? with
  | none => simp [runMain, hm] at h
  | some sc =>
    simp [runMain, hm] at h
    rw [← h]
    show ∀ x ∈ sc.records.map recordJson, jFieldNames x = some eightFields
    intro x hx
    rcases List.mem_map.mp hx with ⟨r, _, hxr⟩
    rw [← hxr]
    rfl

/-- Witness for C8: the March scenario's JSON output is such an array. -/
theorem c8_json_witness :
    isEightFieldArray (jsonReport scanTwo.records) :=
  c8_json_output_eight_fields ("acme/widgets") apiTwo startMar (some endMar)
    (jsonReport scanTwo.records) rfl

set_option maxRecDepth 100000 in
/-- C9: the page loop stops at the first page that comes back empty — the
request count never exceeds that page's index — and, concretely, an API
serving one hundred in-window merged items on page 1 and nothing on page 2
terminates after the second request, without error, returning the hundred
items. -/
theorem c9_pagination_terminates :
    (∀ (s e : PyDateTime) (pages : List (List PRItem)) (i : Nat),
        pages.get? i = some [] → (get_merged_prs s e pages).pagesRequested ≤ i + 1) ∧
    get_merged_prs startMar endMar [page100] = ⟨page100, 2, false⟩ := by
  constructor
  · intro s e pages i h
    exact fetchGo_empty_bound s e pages [] none i h
  · decide

/-- Witness for C9: a run whose very first page is empty makes exactly one
request. -/
theorem c9_pagination_witness :
    (get_merged_prs startMar endMar [[]]).pagesRequested ≤ 0 + 1 :=
  c9_pagination_terminates.1 startMar endMar [[]] 0 (by decide)

/-- C10: when an item of a page triggers the early-termination condition (its
merge timestamp precedes the window start), the rest of that page is still
processed: `shouldContinue` ends up cleared, yet every later item of the page
with an in-window merge timestamp is still appended — provided the page's loop
does not raise. -/
theorem c10_page_completed_after_trigger (s e : PyDateTime) (pre post : List PRItem)
    (bad : PRItem) (acc : List PRItem) (last : Option PyDateTime) (t : PyDateTime)
    (hts : itemTs bad = some t) (hlt : pyLt t s = true)
    (herr : (processPage s e (pre ++ bad :: post) acc last true).err = false) :
    (processPage s e (pre ++ bad :: post) acc last true).cont = false ∧
    ∀ x u, x ∈ post → itemTs x = some u → pyLe s u = true → pyLe u e = true →
      x ∈ (processPage s e (pre ++ bad :: post) acc last true).acc := by
  constructor
  · rcases processPage_stop s e (pre ++ bad :: post) acc last true bad t
      (List.mem_append_right _ (List.mem_cons_self bad post)) hts hlt with hsp | hsp
    · rw [herr] at hsp; cases hsp
    · exact hsp
  · intro x u hx hts2 h1 h2
    exact processPage_complete s e (pre ++ bad :: post) acc last true x u herr
      (List.mem_append_right _ (List.mem_cons_of_mem bad hx)) hts2
      (Bool.and_eq_true_iff.mpr ⟨h1, h2⟩)

/-- Witness for C10: the page [pre-window PR, in-window PR] clears
`shouldContinue` and still appends the in-window PR that follows the
trigger. -/
theorem c10_page_witness :
    (processPage startMar endMar [prEarly, prOne] [] none true).cont = false ∧
    prOne ∈ (processPage startMar endMar [prEarly, prOne] [] none true).acc := by
  have h := c10_page_completed_after_trigger startMar endMar [] [prOne] prEarly [] none
    ⟨2024, 2, 15, 0, 0, 0, 0⟩ (by decide) (by decide) (by decide)
  exact ⟨h.1, h.2 prOne ⟨2024, 3, 10, 1, 2, 3, 0⟩ (by decide) (by decide) (by decide)
    (by decide)⟩

end FetchForceMerged
